import Mathlib

set_option maxHeartbeats 1000000

namespace TunnelFlare

/-- Outcome of an `os.kill(pid, sig)` call as observed by the Python code:
the call either returns normally, raises `ProcessLookupError` (no such
process), or raises `PermissionError` (the process exists but the caller may
not signal it).  Both exception types are subclasses of `OSError`. -/
inductive KillOutcome where
  | ok
  | noSuchProcess
  | permissionDenied
deriving DecidableEq, Repr

/-- `TunnelManager.is_process_running` (main.py lines 152-158): sends signal 0
and returns `True` on success; `except OSError` catches every failure,
including `PermissionError`, and returns `False`. -/
def is_process_running (r : KillOutcome) : Bool :=
  match r with
  | .ok => true
  | .noSuchProcess => false
  | .permissionDenied => false

/-- The whitespace characters removed by Python `str.strip()` (ASCII part). -/
def isPySpace (c : Char) : Bool :=
  c == ' ' || c == '\t' || c == '\n' || c == '\r' || c == '\x0b' || c == '\x0c'

/-- Python `str.strip()`: drop leading and trailing whitespace. -/
def pyStrip (cs : List Char) : List Char :=
  ((cs.dropWhile isPySpace).reverse.dropWhile isPySpace).reverse

def digitVal (c : Char) : Nat := c.toNat - 48

/-- The digits of a Python decimal `int()` literal after its first digit:
plain digits, with single underscores allowed between digits (the CPython
grammar). -/
def parseDigitsGo : List Char → Nat → Option Nat
  | [], acc => some acc
  | '_' :: c :: rest, acc =>
      if c.isDigit then parseDigitsGo rest (acc * 10 + digitVal c) else none
  | c :: rest, acc =>
      if c.isDigit then parseDigitsGo rest (acc * 10 + digitVal c) else none

/-- Python `int(s)` on an already-stripped character list: an optional sign
followed by at least one digit. -/
def pyIntCore : List Char → Option Int
  | [] => none
  | '+' :: rest =>
      match rest with
      | c :: rs => if c.isDigit then (parseDigitsGo rs (digitVal c)).map (fun n => (n : Int)) else none
      | [] => none
  | '-' :: rest =>
      match rest with
      | c :: rs => if c.isDigit then (parseDigitsGo rs (digitVal c)).map (fun n => -(n : Int)) else none
      | [] => none
  | c :: rs => if c.isDigit then (parseDigitsGo rs (digitVal c)).map (fun n => (n : Int)) else none

/-- Python `int(str)`: strips surrounding whitespace, then parses an
optionally signed decimal integer; a `ValueError` is modelled as `none`. -/
def pyInt (s : String) : Option Int :=
  pyIntCore (pyStrip s.toList)

/-- The on-disk state under `~/.cf-tunnels`: the `<id>.pid` files, the
`<id>.config` files and the `logs/<id>.log` files, each keyed by the tunnel
id (the filename stem) and holding raw string content. -/
structure FS where
  pidFiles : List (String × String)
  configFiles : List (String × String)
  logFiles : List (String × String)
deriving DecidableEq, Repr

/-- `os.remove` of the file for key `k` (no effect if absent). -/
def eraseFile : List (String × String) → String → List (String × String)
  | [], _ => []
  | e :: es, k => if e.fst = k then eraseFile es k else e :: eraseFile es k

/-- `open(path, "w")` followed by writing `v`: replaces any previous file. -/
def writeFile (l : List (String × String)) (k v : String) : List (String × String) :=
  (k, v) :: eraseFile l k

/-- `open(path, "a")` creates the file when absent and otherwise leaves the
content in place (the subprocess, not the supervisor, appends to it). -/
def touchFile (l : List (String × String)) (k : String) : List (String × String) :=
  match List.lookup k l with
  | some _ => l
  | none => (k, "") :: l

/-- The cleanup pattern used throughout main.py: `os.remove(pid_file)` and
then remove the config file if it exists. -/
def purge_files (fs : FS) (tid : String) : FS :=
  { fs with
    pidFiles := eraseFile fs.pidFiles tid,
    configFiles := eraseFile fs.configFiles tid }

/-- The literal head of the URL pattern
`https://[a-zA-Z0-9-]*\.trycloudflare\.com` (8 characters). -/
def urlHead : List Char := "https://".toList

/-- The literal tail of the URL pattern (18 characters). -/
def urlTail : List Char := ".trycloudflare.com".toList

/-- The character class `[a-zA-Z0-9-]` of the URL regex in
`get_running_tunnels`. -/
def isLabelChar (c : Char) : Bool := c.isAlpha || c.isDigit || c == '-'

/-- Where a match of `https://[a-zA-Z0-9-]*\.trycloudflare\.com` starting at
position `i` of `cs` ends (exclusive), if the pattern matches there.  Because
`.` is not in the starred character class, the greedy run needs no
backtracking: the pattern matches at `i` iff the maximal label run is
followed by the literal tail. -/
def matchEnd (cs : List Char) (i : Nat) : Option Nat :=
  let s := cs.drop i
  if urlHead.isPrefixOf s then
    let rest := s.drop 8
    let k := (rest.takeWhile isLabelChar).length
    if urlTail.isPrefixOf (rest.drop k) then some (i + 8 + k + 18) else none
  else none

/-- The matched substring at position `i` (empty when no match starts there). -/
def matchStrAt (cs : List Char) (i : Nat) : List Char :=
  match matchEnd cs i with
  | some e => (cs.drop i).take (e - i)
  | none => []

/-- `re.findall` for the URL pattern: scan left to right, collect
non-overlapping matches, resume after each match.  `fuel` bounds the
recursion; any `fuel` with `cs.length ≤ i + fuel` computes the full scan. -/
def findUrlsAux (cs : List Char) : Nat → Nat → List (List Char)
  | 0, _ => []
  | fuel + 1, i =>
      if i < cs.length then
        match matchEnd cs i with
        | some e => matchStrAt cs i :: findUrlsAux cs fuel e
        | none => findUrlsAux cs fuel (i + 1)
      else []

def findUrls (cs : List Char) : List (List Char) := findUrlsAux cs cs.length 0

/-- All positions `p ≥ i` at which the URL pattern matches, in increasing
order (`fuel` as in `findUrlsAux`). -/
def matchPositionsAux (cs : List Char) : Nat → Nat → List Nat
  | 0, _ => []
  | fuel + 1, i =>
      if i < cs.length then
        if (matchEnd cs i).isSome then i :: matchPositionsAux cs fuel (i + 1)
        else matchPositionsAux cs fuel (i + 1)
      else []

/-- All positions at which the URL pattern matches, in increasing order. -/
def matchPositions (cs : List Char) : List Nat := matchPositionsAux cs cs.length 0

/-- `matches[-1] if matches else ""`. -/
def lastOrEmpty (l : List (List Char)) : String :=
  match l.getLast? with
  | some m => String.mk m
  | none => ""

/-- The public-URL extraction step of `get_running_tunnels` (main.py lines
120-130): with the log content in hand (`none` models a missing log file),
`re.findall` the cloudflare pattern and keep the last match, else `""`. -/
def extract_public_url (logContent : Option String) : String :=
  match logContent with
  | none => ""
  | some content => lastOrEmpty (findUrls content.toList)

/-- The per-tunnel configuration as read back by `get_running_tunnels`. -/
structure TunnelConfig where
  name : String
  port : String
  protocol : String
deriving DecidableEq, Repr

/-- Split file content into lines, as Python `for line in f` does (the
retained newline is removed by the subsequent `strip()` in either model). -/
def splitLines : List Char → List (List Char)
  | [] => [[]]
  | c :: rest =>
      if c == '\n' then [] :: splitLines rest
      else
        match splitLines rest with
        | [] => [[c]]
        | l :: ls => (c :: l) :: ls

/-- One line of the config-reading loop of `get_running_tunnels` (main.py
lines 110-118): strip, then dispatch on the `NAME=`/`PORT=`/`PROTOCOL=`
keys, taking the text after the key. -/
def parse_config_line (cfg : TunnelConfig) (rawLine : List Char) : TunnelConfig :=
  let line := pyStrip rawLine
  if "NAME=".toList.isPrefixOf line then { cfg with name := String.mk (line.drop 5) }
  else if "PORT=".toList.isPrefixOf line then { cfg with port := String.mk (line.drop 5) }
  else if "PROTOCOL=".toList.isPrefixOf line then { cfg with protocol := String.mk (line.drop 9) }
  else cfg

/-- Read the config for `tid` with the defaults of `get_running_tunnels`
(name = id, port "3000", protocol "http"); `none` models a missing config
file. -/
def read_config (tid : String) (content : Option String) : TunnelConfig :=
  let dflt : TunnelConfig := { name := tid, port := "3000", protocol := "http" }
  match content with
  | none => dflt
  | some c => (splitLines c.toList).foldl parse_config_line dflt

/-- The `tunnel_info` dict built by `get_running_tunnels`. -/
structure Tunnel where
  id : String
  name : String
  port : String
  protocol : String
  pid : Int
  public_url : String
  is_running : Bool
deriving DecidableEq, Repr

def build_tunnel (fs : FS) (tid : String) (pid : Int) : Tunnel :=
  let cfg := read_config tid (List.lookup tid fs.configFiles)
  { id := tid, name := cfg.name, port := cfg.port, protocol := cfg.protocol,
    pid := pid,
    public_url := extract_public_url (List.lookup tid fs.logFiles),
    is_running := true }

/-- The body of the `for pid_file in pid_files` loop of
`get_running_tunnels`: the id list was computed up front from `os.listdir`,
while each file is re-read at its turn (a vanished file is skipped via
`except FileNotFoundError`).  An unparsable or dead PID purges both files. -/
def listGo (aliveOf : Int → KillOutcome) : List String → FS → FS × List Tunnel
  | [], fs => (fs, [])
  | tid :: rest, fs =>
      match List.lookup tid fs.pidFiles with
      | none => listGo aliveOf rest fs
      | some content =>
          match pyInt content with
          | none => listGo aliveOf rest (purge_files fs tid)
          | some pid =>
              if is_process_running (aliveOf pid) then
                let r := listGo aliveOf rest fs
                (r.1, build_tunnel fs tid pid :: r.2)
              else listGo aliveOf rest (purge_files fs tid)

/-- `TunnelManager.get_running_tunnels` (main.py lines 52-150).  `aliveOf`
gives the zero-signal probe outcome for each PID during this listing. -/
def get_running_tunnels (fs : FS) (aliveOf : Int → KillOutcome) : FS × List Tunnel :=
  listGo aliveOf (fs.pidFiles.map Prod.fst) fs

/-- The character class `[a-zA-Z0-9_-]` kept by the name sanitizer. -/
def isNameChar (c : Char) : Bool := c.isAlpha || c.isDigit || c == '_' || c == '-'

/-- `re.sub(r'[^a-zA-Z0-9_-]', '_', name)` (main.py line 177). -/
def sanitize_name (name : String) : String :=
  String.mk (name.toList.map (fun c => if isNameChar c then c else '_'))

def digitChar (d : Nat) : Char := Char.ofNat (48 + d)

/-- Decimal digits of `n`, as produced by the f-string `f"{counter}"`;
fuel-bounded recursion (`natStr` passes `n + 1`, which suffices). -/
def natStrAux : Nat → Nat → List Char
  | 0, _ => []
  | fuel + 1, n =>
      if n < 10 then [digitChar n]
      else natStrAux fuel (n / 10) ++ [digitChar (n % 10)]

def natStr (n : Nat) : String := String.mk (natStrAux (n + 1) n)

/-- Python `str(pid)`. -/
def intStr (p : Int) : String :=
  if p < 0 then "-" ++ natStr (-p).toNat else natStr p.toNat

/-- `TunnelManager.is_process_running_for_pid_file` (main.py lines 269-278):
`False` when the file does not exist; otherwise read it, parse the PID
(`ValueError` → `False`), and probe the process. -/
def is_process_running_for_pid_file (fs : FS) (probe : Int → KillOutcome) (stem : String) : Bool :=
  match List.lookup stem fs.pidFiles with
  | none => false
  | some content =>
      match pyInt content with
      | none => false
      | some pid => is_process_running (probe pid)

/-- The duplicate-name `while` loop of `start_tunnel` (main.py lines
184-193), entered only when `<base>.pid` exists: try `base_1`, `base_2`, …
and stop at the first candidate whose PID file is absent, unparsable, or
refers to a dead process (a live candidate always re-enters the loop, since
its PID file exists).  `fuel` bounds the search; among the first
`fs.pidFiles.length + 1` candidates at least one has no PID file, so the
fuel-exhausted fallback (returning the current candidate) is unreachable
when called with that fuel. -/
def disambiguateAux (fs : FS) (probe : Int → KillOutcome) (base : String) : Nat → Nat → String
  | 0, k => base ++ "_" ++ natStr k
  | fuel + 1, k =>
      let cand := base ++ "_" ++ natStr k
      if is_process_running_for_pid_file fs probe cand then
        disambiguateAux fs probe base fuel (k + 1)
      else cand

/-- The duplicate-name check of `start_tunnel`: the base name is used iff no
`<base>.pid` exists (its liveness is never probed); otherwise the suffix
search runs. -/
def disambiguate (fs : FS) (probe : Int → KillOutcome) (base : String) : String :=
  match List.lookup base fs.pidFiles with
  | none => base
  | some _ => disambiguateAux fs probe base (fs.pidFiles.length + 1) 1

/-- The computation of `final_name` in `start_tunnel` (main.py lines
175-193): sanitize, fall back to `app_<uuid4 prefix>` when empty,
disambiguate. -/
def chooseFinalName (fs : FS) (probe : Int → KillOutcome) (name uuid8 : String) : String :=
  let s := sanitize_name name
  let s := if s = "" then "app_" ++ uuid8 else s
  disambiguate fs probe s

/-- The config file written by `start_tunnel` (main.py lines 196-201). -/
def config_content (finalName port protocol ts : String) : String :=
  "NAME=" ++ finalName ++ "\n" ++ "PORT=" ++ port ++ "\n" ++
  "PROTOCOL=" ++ protocol ++ "\n" ++ "START_TIME=" ++ ts ++ "\n"

/-- Outcome of the `subprocess.Popen` call: `FileNotFoundError` (cloudflared
missing from PATH), another exception, or a spawned child with its PID. -/
inductive SpawnOutcome where
  | fileNotFound
  | otherError
  | started (pid : Int)
deriving DecidableEq, Repr

/-- The environment of one `start_tunnel` call: the `uuid4` token used for
empty names, the timestamp, the probe outcomes during duplicate checking,
the spawn outcome, the `poll()` result after the 0.5 s sleep (`true` =
already exited), the confirmation probe after the PID file is written, and
the probe used by the `get_running_tunnels` run for the `tunnels_updated`
signal on success. -/
structure StartEnv where
  uuid8 : String
  timestamp : String
  disambProbe : Int → KillOutcome
  spawn : SpawnOutcome
  pollExited : Bool
  confirmProbe : KillOutcome
  listProbe : Int → KillOutcome

/-- `TunnelManager.start_tunnel` (main.py lines 160-267): validate port and
protocol, sanitize and disambiguate the name, write the config file, open
the log file in append mode (this happens while building the `Popen`
arguments, so the log exists even when the spawn then fails), spawn, poll
briefly, write the PID file, re-probe the PID, and on success run
`get_running_tunnels` for the `tunnels_updated` signal.  Returns the updated
store and the Boolean result. -/
def start_tunnel (fs : FS) (env : StartEnv) (name port protocol : String) : FS × Bool :=
  match pyInt port with
  | none => (fs, false)
  | some p =>
      if p < 1 || 65535 < p then (fs, false)
      else if protocol != "http" && protocol != "https" then (fs, false)
      else
        let final_name := chooseFinalName fs env.disambProbe name env.uuid8
        let cc := config_content final_name port protocol env.timestamp
        let fs1 := { fs with configFiles := writeFile fs.configFiles final_name cc }
        let fs2 := { fs1 with logFiles := touchFile fs1.logFiles final_name }
        match env.spawn with
        | .fileNotFound =>
            ({ fs2 with configFiles := eraseFile fs2.configFiles final_name }, false)
        | .otherError =>
            ({ fs2 with configFiles := eraseFile fs2.configFiles final_name }, false)
        | .started pid =>
            if env.pollExited then (fs2, false)
            else
              let fs3 := { fs2 with pidFiles := writeFile fs2.pidFiles final_name (intStr pid) }
              if is_process_running env.confirmProbe then
                ((get_running_tunnels fs3 env.listProbe).1, true)
              else
                ({ fs3 with pidFiles := eraseFile fs3.pidFiles final_name }, false)

/-- The environment of one `stop_tunnel` call: the liveness-probe outcomes in
call order (index 0 is the initial check, indices 1-10 the graceful-wait
polls, and the next unused index the pre-SIGKILL check), the SIGTERM and
SIGKILL outcomes, and the probe of the `get_running_tunnels` run for the
`tunnels_updated` signal on the terminating success path. -/
structure StopEnv where
  probe : Nat → KillOutcome
  termRes : KillOutcome
  killRes : KillOutcome
  listProbe : Int → KillOutcome

/-- The graceful-wait loop of `stop_tunnel` (main.py lines 316-319): up to
`n` polls at 0.5 s intervals, stopping early after a dead probe; returns the
next unused probe index. -/
def wait_loop (probe : Nat → KillOutcome) : Nat → Nat → Nat
  | i, 0 => i
  | i, n + 1 =>
      if is_process_running (probe i) then wait_loop probe (i + 1) n
      else i + 1

/-- `TunnelManager.stop_tunnel` (main.py lines 280-349): not-found reports
failure; an unparsable PID removes the PID file and reports failure; a dead
process purges both files and reports success; otherwise SIGTERM
(`PermissionError` → failure, untouched), the bounded graceful wait, a
pre-SIGKILL liveness check, SIGKILL if still alive (`PermissionError` →
failure, untouched), then purge both files and report success — with no
liveness check after the SIGKILL. -/
def stop_tunnel (fs : FS) (env : StopEnv) (tid : String) : FS × Bool :=
  match List.lookup tid fs.pidFiles with
  | none => (fs, false)
  | some content =>
      match pyInt content with
      | none => ({ fs with pidFiles := eraseFile fs.pidFiles tid }, false)
      | some _pid =>
          if !is_process_running (env.probe 0) then
            (purge_files fs tid, true)
          else
            match env.termRes with
            | .permissionDenied => (fs, false)
            | _ =>
                let j := wait_loop env.probe 1 10
                if is_process_running (env.probe j) then
                  match env.killRes with
                  | .permissionDenied => (fs, false)
                  | _ =>
                      ((get_running_tunnels (purge_files fs tid) env.listProbe).1, true)
                else
                  ((get_running_tunnels (purge_files fs tid) env.listProbe).1, true)

/-- A stop environment in which every probe reports the process alive and
both signals are accepted: the process survives even the SIGKILL. -/
def stopEnvAllOk : StopEnv :=
  ⟨fun _ => KillOutcome.ok, KillOutcome.ok, KillOutcome.ok, fun _ => KillOutcome.ok⟩

/-- A stop environment in which every probe reports the process dead. -/
def stopEnvDead : StopEnv :=
  ⟨fun _ => KillOutcome.noSuchProcess, KillOutcome.ok, KillOutcome.ok,
   fun _ => KillOutcome.noSuchProcess⟩

/-- A stop environment in which the process stays alive and the SIGKILL is
rejected with `PermissionError`. -/
def stopEnvKillDenied : StopEnv :=
  ⟨fun _ => KillOutcome.ok, KillOutcome.ok, KillOutcome.permissionDenied,
   fun _ => KillOutcome.ok⟩

/-- A start environment whose spawn succeeds and survives the poll, but
whose post-write confirmation probe reports the process gone. -/
def startEnvConfirmDead : StartEnv :=
  ⟨"deadbeef", "2020-01-01 00:00:00", fun _ => KillOutcome.ok, SpawnOutcome.started 100,
   false, KillOutcome.noSuchProcess, fun _ => KillOutcome.ok⟩

/-- A start environment whose spawned process has already exited when the
brief post-spawn poll runs. -/
def startEnvPollExit : StartEnv :=
  ⟨"deadbeef", "2020-01-01 00:00:00", fun _ => KillOutcome.ok, SpawnOutcome.started 100,
   true, KillOutcome.ok, fun _ => KillOutcome.ok⟩

/-- A start environment in which everything succeeds. -/
def startEnvOk : StartEnv :=
  ⟨"deadbeef", "2020-01-01 00:00:00", fun _ => KillOutcome.ok, SpawnOutcome.started 100,
   false, KillOutcome.ok, fun _ => KillOutcome.ok⟩

/-! ### Store lemmas -/

theorem lookup_cons_self (es : List (String × String)) (a b : String) :
    List.lookup a ((a, b) :: es) = some b := by
  simp [List.lookup, beq_self_eq_true]

theorem lookup_cons_ne (es : List (String × String)) {k a : String} (b : String)
    (h : k ≠ a) : List.lookup k ((a, b) :: es) = List.lookup k es := by
  have hb : (k == a) = false := beq_eq_false_iff_ne.mpr h
  simp [List.lookup, hb]

theorem lookup_eraseFile (l : List (String × String)) (k t : String) :
    List.lookup k (eraseFile l t) = if k = t then none else List.lookup k l := by
  induction l with
  | nil => simp [eraseFile]
  | cons e es ih =>
      obtain ⟨a, b⟩ := e
      by_cases hat : a = t
      · subst hat
        rw [show eraseFile ((a, b) :: es) a = eraseFile es a from by simp [eraseFile], ih]
        by_cases hk : k = a
        · simp [hk]
        · simp [hk, lookup_cons_ne es b hk]
      · rw [show eraseFile ((a, b) :: es) t = (a, b) :: eraseFile es t from by
            simp [eraseFile, hat]]
        by_cases hk : k = a
        · subst hk
          have hkt : ¬ k = t := hat
          simp [hkt, lookup_cons_self]
        · rw [lookup_cons_ne _ b hk, lookup_cons_ne es b hk, ih]

theorem lookup_writeFile (l : List (String × String)) (k t v : String) :
    List.lookup k (writeFile l t v) = if k = t then some v else List.lookup k l := by
  by_cases hk : k = t
  · subst hk
    simp [writeFile, lookup_cons_self]
  · rw [writeFile, lookup_cons_ne _ v hk, lookup_eraseFile]
    simp [hk]

theorem eraseFile_sublist (l : List (String × String)) (t : String) :
    (eraseFile l t).Sublist l := by
  induction l with
  | nil => simp [eraseFile]
  | cons e es ih =>
      by_cases hat : e.fst = t
      · rw [show eraseFile (e :: es) t = eraseFile es t from by simp [eraseFile, hat]]
        exact ih.trans (List.sublist_cons_self e es)
      · rw [show eraseFile (e :: es) t = e :: eraseFile es t from by simp [eraseFile, hat]]
        exact ih.cons₂ e

theorem lookup_isSome_of_mem {l : List (String × String)} {k v : String}
    (h : (k, v) ∈ l) : (List.lookup k l).isSome := by
  induction l with
  | nil => simp at h
  | cons e es ih =>
      obtain ⟨a, b⟩ := e
      rcases List.mem_cons.mp h with h1 | h2
      · injection h1 with h3 h4
        subst h3
        rw [lookup_cons_self]
        rfl
      · by_cases hk : k = a
        · subst hk
          rw [lookup_cons_self]
          rfl
        · rw [lookup_cons_ne es b hk]
          exact ih h2

theorem mem_of_lookup_eq_some {l : List (String × String)} {k v : String}
    (h : List.lookup k l = some v) : (k, v) ∈ l := by
  induction l with
  | nil => simp [List.lookup] at h
  | cons e es ih =>
      obtain ⟨a, b⟩ := e
      by_cases hk : k = a
      · subst hk
        rw [lookup_cons_self] at h
        injection h with h'
        subst h'
        exact List.mem_cons_self _ _
      · rw [lookup_cons_ne es b hk] at h
        exact List.mem_cons_of_mem _ (ih h)

theorem lookup_eq_none_of_sublist {l' l : List (String × String)} (hs : l'.Sublist l)
    {k : String} (hk : List.lookup k l = none) : List.lookup k l' = none := by
  cases hl' : List.lookup k l' with
  | none => rfl
  | some v =>
      have := lookup_isSome_of_mem (hs.mem (mem_of_lookup_eq_some hl'))
      rw [hk] at this
      simp at this

theorem purge_pid_lookup (fs : FS) (tid : String) :
    List.lookup tid (purge_files fs tid).pidFiles = none := by
  simp [purge_files, lookup_eraseFile]

theorem purge_config_lookup (fs : FS) (tid : String) :
    List.lookup tid (purge_files fs tid).configFiles = none := by
  simp [purge_files, lookup_eraseFile]

theorem purge_pid_sublist (fs : FS) (tid : String) :
    (purge_files fs tid).pidFiles.Sublist fs.pidFiles :=
  eraseFile_sublist fs.pidFiles tid

theorem purge_config_sublist (fs : FS) (tid : String) :
    (purge_files fs tid).configFiles.Sublist fs.configFiles :=
  eraseFile_sublist fs.configFiles tid

theorem listGo_pid_sublist (aliveOf : Int → KillOutcome) (ids : List String) (fs : FS) :
    ((listGo aliveOf ids fs).1).pidFiles.Sublist fs.pidFiles := by
  induction ids generalizing fs with
  | nil => simp [listGo]
  | cons tid rest ih =>
      simp only [listGo]
      split
      · exact ih fs
      · split
        · exact (ih (purge_files fs tid)).trans (purge_pid_sublist fs tid)
        · split
          · exact ih fs
          · exact (ih (purge_files fs tid)).trans (purge_pid_sublist fs tid)

theorem listGo_config_sublist (aliveOf : Int → KillOutcome) (ids : List String) (fs : FS) :
    ((listGo aliveOf ids fs).1).configFiles.Sublist fs.configFiles := by
  induction ids generalizing fs with
  | nil => simp [listGo]
  | cons tid rest ih =>
      simp only [listGo]
      split
      · exact ih fs
      · split
        · exact (ih (purge_files fs tid)).trans (purge_config_sublist fs tid)
        · split
          · exact ih fs
          · exact (ih (purge_files fs tid)).trans (purge_config_sublist fs tid)

/-- Exhaustive classification of a `stop_tunnel` run: not-found failure,
unparsable-PID failure (PID file deleted, nothing else), permission-denied
failure (store untouched), or success (both files of `tid` purged, possibly
followed by the listing emitted through `tunnels_updated`). -/
theorem stop_tunnel_cases (fs : FS) (env : StopEnv) (tid : String) :
    (List.lookup tid fs.pidFiles = none ∧ stop_tunnel fs env tid = (fs, false))
    ∨ (∃ content, List.lookup tid fs.pidFiles = some content ∧ pyInt content = none ∧
        stop_tunnel fs env tid = ({ fs with pidFiles := eraseFile fs.pidFiles tid }, false))
    ∨ (stop_tunnel fs env tid = (fs, false) ∧
        (env.termRes = KillOutcome.permissionDenied ∨ env.killRes = KillOutcome.permissionDenied))
    ∨ ((stop_tunnel fs env tid).2 = true ∧
        ((stop_tunnel fs env tid).1 = purge_files fs tid ∨
         (stop_tunnel fs env tid).1 = (get_running_tunnels (purge_files fs tid) env.listProbe).1)) := by
  rcases hl : List.lookup tid fs.pidFiles with _ | content
  · exact Or.inl ⟨rfl, by simp [stop_tunnel, hl]⟩
  · rcases hp : pyInt content with _ | pid
    · exact Or.inr (Or.inl ⟨content, rfl, hp, by simp [stop_tunnel, hl, hp]⟩)
    · cases h0 : is_process_running (env.probe 0) with
      | false =>
          refine Or.inr (Or.inr (Or.inr ?_))
          have : stop_tunnel fs env tid = (purge_files fs tid, true) := by
            simp [stop_tunnel, hl, hp, h0]
          rw [this]
          exact ⟨rfl, Or.inl rfl⟩
      | true =>
          cases ht : env.termRes with
          | permissionDenied =>
              refine Or.inr (Or.inr (Or.inl ⟨?_, Or.inl rfl⟩))
              simp [stop_tunnel, hl, hp, h0, ht]
          | ok =>
              cases hj : is_process_running (env.probe (wait_loop env.probe 1 10)) with
              | false =>
                  refine Or.inr (Or.inr (Or.inr ?_))
                  have : stop_tunnel fs env tid =
                      ((get_running_tunnels (purge_files fs tid) env.listProbe).1, true) := by
                    simp [stop_tunnel, hl, hp, h0, ht, hj]
                  rw [this]
                  exact ⟨rfl, Or.inr rfl⟩
              | true =>
                  cases hk : env.killRes with
                  | permissionDenied =>
                      refine Or.inr (Or.inr (Or.inl ⟨?_, Or.inr rfl⟩))
                      simp [stop_tunnel, hl, hp, h0, ht, hj, hk]
                  | ok =>
                      refine Or.inr (Or.inr (Or.inr ?_))
                      have : stop_tunnel fs env tid =
                          ((get_running_tunnels (purge_files fs tid) env.listProbe).1, true) := by
                        simp [stop_tunnel, hl, hp, h0, ht, hj, hk]
                      rw [this]
                      exact ⟨rfl, Or.inr rfl⟩
                  | noSuchProcess =>
                      refine Or.inr (Or.inr (Or.inr ?_))
                      have : stop_tunnel fs env tid =
                          ((get_running_tunnels (purge_files fs tid) env.listProbe).1, true) := by
                        simp [stop_tunnel, hl, hp, h0, ht, hj, hk]
                      rw [this]
                      exact ⟨rfl, Or.inr rfl⟩
          | noSuchProcess =>
              cases hj : is_process_running (env.probe (wait_loop env.probe 1 10)) with
              | false =>
                  refine Or.inr (Or.inr (Or.inr ?_))
                  have : stop_tunnel fs env tid =
                      ((get_running_tunnels (purge_files fs tid) env.listProbe).1, true) := by
                    simp [stop_tunnel, hl, hp, h0, ht, hj]
                  rw [this]
                  exact ⟨rfl, Or.inr rfl⟩
              | true =>
                  cases hk : env.killRes with
                  | permissionDenied =>
                      refine Or.inr (Or.inr (Or.inl ⟨?_, Or.inr rfl⟩))
                      simp [stop_tunnel, hl, hp, h0, ht, hj, hk]
                  | ok =>
                      refine Or.inr (Or.inr (Or.inr ?_))
                      have : stop_tunnel fs env tid =
                          ((get_running_tunnels (purge_files fs tid) env.listProbe).1, true) := by
                        simp [stop_tunnel, hl, hp, h0, ht, hj, hk]
                      rw [this]
                      exact ⟨rfl, Or.inr rfl⟩
                  | noSuchProcess =>
                      refine Or.inr (Or.inr (Or.inr ?_))
                      have : stop_tunnel fs env tid =
                          ((get_running_tunnels (purge_files fs tid) env.listProbe).1, true) := by
                        simp [stop_tunnel, hl, hp, h0, ht, hj, hk]
                      rw [this]
                      exact ⟨rfl, Or.inr rfl⟩

/-- On every success exit of `stop_tunnel`, both files of `tid` are gone:
the success paths purge them, and the listing run by the emitted
`tunnels_updated` signal never recreates a file. -/
theorem stop_success_state (fs : FS) (env : StopEnv) (tid : String)
    (h : (stop_tunnel fs env tid).2 = true) :
    List.lookup tid (stop_tunnel fs env tid).1.pidFiles = none ∧
    List.lookup tid (stop_tunnel fs env tid).1.configFiles = none := by
  rcases stop_tunnel_cases fs env tid with ⟨_, he⟩ | ⟨c, _, _, he⟩ | ⟨he, _⟩ | ⟨_, he | he⟩
  · rw [he] at h; simp at h
  · rw [he] at h; simp at h
  · rw [he] at h; simp at h
  · rw [he]
    exact ⟨purge_pid_lookup fs tid, purge_config_lookup fs tid⟩
  · rw [he]
    exact ⟨lookup_eq_none_of_sublist (listGo_pid_sublist env.listProbe _ _) (purge_pid_lookup fs tid),
      lookup_eq_none_of_sublist (listGo_config_sublist env.listProbe _ _) (purge_config_lookup fs tid)⟩

/-! ### C4 — the process probe and permission-denied errors -/

/-- C4 counterexample: the claim says a permission-denied error against an
existing process does not make the probe return `false`; but
`is_process_running` catches every `OSError` — `PermissionError` included —
and returns `false`, and permission-denied is not the no-such-process
error. -/
theorem c4_counterexample :
    is_process_running KillOutcome.permissionDenied = false ∧
    KillOutcome.permissionDenied ≠ KillOutcome.noSuchProcess :=
  ⟨rfl, by decide⟩

/-- C4 amended: `is_process_running` returns `true` exactly when the
zero-signal probe raises no `OSError`; any `OSError`, including a
permission-denied error against an existing but inaccessible process,
yields `false` — the code does not distinguish absence from
inaccessibility. -/
theorem c4_amended :
    is_process_running KillOutcome.ok = true ∧
    is_process_running KillOutcome.noSuchProcess = false ∧
    is_process_running KillOutcome.permissionDenied = false :=
  ⟨rfl, rfl, rfl⟩

/-! ### C2 — what `stop_tunnel` deletes when it fails -/

/-- C2 counterexample: a PID file holding the unparsable content `"abc"`.
`stop_tunnel` reports failure, yet the PID file has been deleted while the
descriptor file survives — exactly the partial deletion the claim rules
out. -/
theorem c2_counterexample :
    (stop_tunnel (FS.mk [("t1", "abc")] [("t1", "NAME=t1")] []) stopEnvAllOk "t1").2 = false ∧
    List.lookup "t1"
      (stop_tunnel (FS.mk [("t1", "abc")] [("t1", "NAME=t1")] []) stopEnvAllOk "t1").1.pidFiles
      = none ∧
    List.lookup "t1"
      (stop_tunnel (FS.mk [("t1", "abc")] [("t1", "NAME=t1")] []) stopEnvAllOk "t1").1.configFiles
      = some "NAME=t1" := by
  decide

/-- C2 amended: when `stop_tunnel` reports failure, the store is left
untouched — except in the unparsable-PID case, where exactly the PID file
is deleted and the descriptor file (and everything else) is left in place,
leaving a descriptor-without-PidRecord state behind. -/
theorem c2_amended (fs : FS) (env : StopEnv) (tid : String)
    (h : (stop_tunnel fs env tid).2 = false) :
    (stop_tunnel fs env tid).1 = fs ∨
    (∃ content, List.lookup tid fs.pidFiles = some content ∧ pyInt content = none ∧
      (stop_tunnel fs env tid).1 = { fs with pidFiles := eraseFile fs.pidFiles tid }) := by
  rcases stop_tunnel_cases fs env tid with ⟨_, he⟩ | ⟨c, hc, hp, he⟩ | ⟨he, _⟩ | ⟨ht, _⟩
  · rw [he]
    exact Or.inl rfl
  · exact Or.inr ⟨c, hc, hp, by rw [he]⟩
  · rw [he]
    exact Or.inl rfl
  · rw [ht] at h
    simp at h

/-- C2 witness: `c2_amended` at the not-found input `stop_tunnel` on an
empty store. -/
theorem c2_witness :
    (stop_tunnel (FS.mk [] [] []) stopEnvAllOk "ghost").2 = false ∧
    ((stop_tunnel (FS.mk [] [] []) stopEnvAllOk "ghost").1 = FS.mk [] [] [] ∨
     (∃ content, List.lookup "ghost" (FS.mk [] [] [] : FS).pidFiles = some content ∧
       pyInt content = none ∧
       (stop_tunnel (FS.mk [] [] []) stopEnvAllOk "ghost").1 =
         { (FS.mk [] [] [] : FS) with
           pidFiles := eraseFile (FS.mk [] [] [] : FS).pidFiles "ghost" })) :=
  ⟨by decide, c2_amended (FS.mk [] [] []) stopEnvAllOk "ghost" (by decide)⟩

/-! ### C3 — idempotence of `stop_tunnel` -/

/-- C3 counterexample: a tunnel whose process is already dead.  The first
`stop_tunnel` succeeds and purges both files; the second call then reports
not-found, i.e. failure — contradicting "the second call does not report
failure". -/
theorem c3_counterexample :
    (stop_tunnel (FS.mk [("t", "5")] [("t", "x")] []) stopEnvDead "t").2 = true ∧
    (stop_tunnel (stop_tunnel (FS.mk [("t", "5")] [("t", "x")] []) stopEnvDead "t").1
      stopEnvDead "t").2 = false := by
  decide

/-- C3 amended: after a `stop_tunnel` that reports success, neither a PID
file nor a descriptor file for the id remains, and a second call is a
no-op that reports not-found (failure), mutating nothing. -/
theorem c3_amended (fs : FS) (env1 env2 : StopEnv) (tid : String)
    (h : (stop_tunnel fs env1 tid).2 = true) :
    List.lookup tid (stop_tunnel fs env1 tid).1.pidFiles = none ∧
    List.lookup tid (stop_tunnel fs env1 tid).1.configFiles = none ∧
    stop_tunnel (stop_tunnel fs env1 tid).1 env2 tid = ((stop_tunnel fs env1 tid).1, false) := by
  obtain ⟨h1, h2⟩ := stop_success_state fs env1 tid h
  refine ⟨h1, h2, ?_⟩
  generalize hg : (stop_tunnel fs env1 tid).1 = fs1 at h1 ⊢
  simp [stop_tunnel, h1]

/-- C3 witness: `c3_amended` on a store holding a dead tunnel `w`. -/
theorem c3_witness :
    (stop_tunnel (FS.mk [("w", "9")] [("w", "cfg")] []) stopEnvDead "w").2 = true ∧
    List.lookup "w" (stop_tunnel (FS.mk [("w", "9")] [("w", "cfg")] []) stopEnvDead "w").1.pidFiles
      = none ∧
    List.lookup "w" (stop_tunnel (FS.mk [("w", "9")] [("w", "cfg")] []) stopEnvDead "w").1.configFiles
      = none ∧
    stop_tunnel (stop_tunnel (FS.mk [("w", "9")] [("w", "cfg")] []) stopEnvDead "w").1
        stopEnvDead "w"
      = ((stop_tunnel (FS.mk [("w", "9")] [("w", "cfg")] []) stopEnvDead "w").1, false) :=
  ⟨by decide, c3_amended (FS.mk [("w", "9")] [("w", "cfg")] []) stopEnvDead stopEnvDead "w" (by decide)⟩

/-! ### C7 — the forceful-termination path of `stop_tunnel` -/

/-- The graceful-wait loop consumes all `n` polls when the process stays
alive throughout, returning the next probe index `i + n`. -/
theorem wait_loop_all_alive (probe : Nat → KillOutcome) :
    ∀ (n i : Nat), (∀ m, i ≤ m → m < i + n → is_process_running (probe m) = true) →
      wait_loop probe i n = i + n := by
  intro n
  induction n with
  | zero => intro i _; simp [wait_loop]
  | succ n ih =>
      intro i hall
      have h0 : is_process_running (probe i) = true := hall i le_rfl (by omega)
      simp only [wait_loop, h0, if_pos]
      rw [ih (i + 1) (fun m hm1 hm2 => hall m (by omega) (by omega))]
      omega

/-- C7 counterexample: a process that stays alive at every probe — even
after the accepted SIGKILL — yet `stop_tunnel` purges both files and
reports success: the code never re-checks liveness after the forceful
signal, contradicting "if the process persists after the forceful signal,
stopTunnel reports failure". -/
theorem c7_counterexample :
    (stop_tunnel (FS.mk [("t", "9")] [("t", "c")] []) stopEnvAllOk "t").2 = true ∧
    (∀ i : Nat, is_process_running (stopEnvAllOk.probe i) = true) :=
  ⟨by decide, fun _ => rfl⟩

/-- C7 amended: if the process is still alive after the bounded graceful
wait, the forceful signal is sent but liveness is never re-checked: when
the OS rejects the SIGKILL with permission denied, `stop_tunnel` reports
failure leaving the store untouched; in every other case it purges both
files and reports success, even if the process persists (the outcome
depends on no probe after index 11). -/
theorem c7_amended (fs : FS) (env : StopEnv) (tid content : String) (pid : Int)
    (hl : List.lookup tid fs.pidFiles = some content)
    (hp : pyInt content = some pid)
    (halive : ∀ i, i ≤ 11 → is_process_running (env.probe i) = true)
    (hterm : env.termRes ≠ KillOutcome.permissionDenied) :
    (env.killRes = KillOutcome.permissionDenied → stop_tunnel fs env tid = (fs, false)) ∧
    (env.killRes ≠ KillOutcome.permissionDenied →
      (stop_tunnel fs env tid).2 = true ∧
      List.lookup tid (stop_tunnel fs env tid).1.pidFiles = none ∧
      List.lookup tid (stop_tunnel fs env tid).1.configFiles = none) := by
  have h0 : is_process_running (env.probe 0) = true := halive 0 (by omega)
  have hw : wait_loop env.probe 1 10 = 11 :=
    wait_loop_all_alive env.probe 10 1 (fun m hm1 hm2 => halive m (by omega))
  have hj : is_process_running (env.probe (wait_loop env.probe 1 10)) = true := by
    rw [hw]
    exact halive 11 (by omega)
  constructor
  · intro hk
    cases ht : env.termRes with
    | permissionDenied => exact absurd ht hterm
    | ok => simp [stop_tunnel, hl, hp, h0, ht, hj, hk]
    | noSuchProcess => simp [stop_tunnel, hl, hp, h0, ht, hj, hk]
  · intro hk
    have hstop : stop_tunnel fs env tid =
        ((get_running_tunnels (purge_files fs tid) env.listProbe).1, true) := by
      cases ht : env.termRes with
      | permissionDenied => exact absurd ht hterm
      | ok =>
          cases hkk : env.killRes with
          | permissionDenied => exact absurd hkk hk
          | ok => simp [stop_tunnel, hl, hp, h0, ht, hj, hkk]
          | noSuchProcess => simp [stop_tunnel, hl, hp, h0, ht, hj, hkk]
      | noSuchProcess =>
          cases hkk : env.killRes with
          | permissionDenied => exact absurd hkk hk
          | ok => simp [stop_tunnel, hl, hp, h0, ht, hj, hkk]
          | noSuchProcess => simp [stop_tunnel, hl, hp, h0, ht, hj, hkk]
    rw [hstop]
    exact ⟨rfl,
      lookup_eq_none_of_sublist (listGo_pid_sublist env.listProbe _ _) (purge_pid_lookup fs tid),
      lookup_eq_none_of_sublist (listGo_config_sublist env.listProbe _ _) (purge_config_lookup fs tid)⟩

/-- C7 witness: `c7_amended` where the SIGKILL is rejected with
`PermissionError`. -/
theorem c7_witness :
    (∀ i, i ≤ 11 → is_process_running (stopEnvKillDenied.probe i) = true) ∧
    (stopEnvKillDenied.killRes = KillOutcome.permissionDenied →
      stop_tunnel (FS.mk [("t", "9")] [("t", "cfg")] []) stopEnvKillDenied "t" =
        (FS.mk [("t", "9")] [("t", "cfg")] [], false)) ∧
    (stopEnvKillDenied.killRes ≠ KillOutcome.permissionDenied →
      (stop_tunnel (FS.mk [("t", "9")] [("t", "cfg")] []) stopEnvKillDenied "t").2 = true ∧
      List.lookup "t"
        (stop_tunnel (FS.mk [("t", "9")] [("t", "cfg")] []) stopEnvKillDenied "t").1.pidFiles
        = none ∧
      List.lookup "t"
        (stop_tunnel (FS.mk [("t", "9")] [("t", "cfg")] []) stopEnvKillDenied "t").1.configFiles
        = none) :=
  ⟨fun _ _ => rfl,
   (c7_amended (FS.mk [("t", "9")] [("t", "cfg")] []) stopEnvKillDenied "t" "9" 9
      (by decide) (by decide) (fun _ _ => rfl) (by decide)).1,
   (c7_amended (FS.mk [("t", "9")] [("t", "cfg")] []) stopEnvKillDenied "t" "9" 9
      (by decide) (by decide) (fun _ _ => rfl) (by decide)).2⟩

/-! ### C1 — the post-spawn confirmation path of `start_tunnel` -/

/-- C1 counterexample: the spawn succeeds and survives the poll, but the
confirmation probe reports the process gone.  `start_tunnel` reports
failure and removes the PID file — yet the descriptor file it wrote is
still present, contradicting "both the descriptor and any written
PidRecord are removed". -/
theorem c1_counterexample :
    (start_tunnel (FS.mk [] [] []) startEnvConfirmDead "svc" "3000" "http").2 = false ∧
    List.lookup "svc"
      (start_tunnel (FS.mk [] [] []) startEnvConfirmDead "svc" "3000" "http").1.pidFiles
      = none ∧
    List.lookup "svc"
      (start_tunnel (FS.mk [] [] []) startEnvConfirmDead "svc" "3000" "http").1.configFiles
      ≠ none := by
  decide

/-- C1 amended: the PID file is written first and liveness re-confirmed
afterwards; when the confirmation fails, the call removes the PID file and
reports failure, but it leaves the descriptor file it wrote in place. -/
theorem c1_amended (fs : FS) (env : StartEnv) (name port protocol : String) (p pid : Int)
    (hp : pyInt port = some p) (hlo : 1 ≤ p) (hhi : p ≤ 65535)
    (hproto : protocol = "http" ∨ protocol = "https")
    (hs : env.spawn = SpawnOutcome.started pid)
    (hpoll : env.pollExited = false)
    (hconf : is_process_running env.confirmProbe = false) :
    (start_tunnel fs env name port protocol).2 = false ∧
    List.lookup (chooseFinalName fs env.disambProbe name env.uuid8)
      (start_tunnel fs env name port protocol).1.pidFiles = none ∧
    List.lookup (chooseFinalName fs env.disambProbe name env.uuid8)
      (start_tunnel fs env name port protocol).1.configFiles =
      some (config_content (chooseFinalName fs env.disambProbe name env.uuid8) port protocol
        env.timestamp) := by
  have hcond : (decide (p < 1) || decide (65535 < p)) = false := by
    simp only [Bool.or_eq_false_iff, decide_eq_false_iff_not]
    omega
  have hpcond : (protocol != "http" && protocol != "https") = false := by
    rcases hproto with h | h <;> subst h <;> decide
  refine ⟨?_, ?_, ?_⟩
  · simp [start_tunnel, hp, hcond, hpcond, hs, hpoll, hconf]
  · simp [start_tunnel, hp, hcond, hpcond, hs, hpoll, hconf, lookup_eraseFile]
  · simp [start_tunnel, hp, hcond, hpcond, hs, hpoll, hconf, lookup_writeFile]

/-- C1 witness: `c1_amended` on an empty store with a confirmation probe
that reports the process gone. -/
theorem c1_witness :
    pyInt "8080" = some 8080 ∧
    (start_tunnel (FS.mk [] [] []) startEnvConfirmDead "web" "8080" "https").2 = false ∧
    List.lookup (chooseFinalName (FS.mk [] [] []) startEnvConfirmDead.disambProbe "web"
        startEnvConfirmDead.uuid8)
      (start_tunnel (FS.mk [] [] []) startEnvConfirmDead "web" "8080" "https").1.pidFiles
      = none ∧
    List.lookup (chooseFinalName (FS.mk [] [] []) startEnvConfirmDead.disambProbe "web"
        startEnvConfirmDead.uuid8)
      (start_tunnel (FS.mk [] [] []) startEnvConfirmDead "web" "8080" "https").1.configFiles
      = some (config_content (chooseFinalName (FS.mk [] [] []) startEnvConfirmDead.disambProbe
          "web" startEnvConfirmDead.uuid8) "8080" "https" startEnvConfirmDead.timestamp) := by
  refine ⟨by decide, ?_⟩
  exact c1_amended (FS.mk [] [] []) startEnvConfirmDead "web" "8080" "https" 8080 100
    (by decide) (by decide) (by decide) (Or.inr rfl) rfl rfl rfl

/-! ### C6 — the immediate-exit path of `start_tunnel` -/

/-- C6 counterexample: the spawned process has already exited during the
brief poll.  `start_tunnel` reports failure and writes no PID file, but the
descriptor file it wrote is still present — contradicting "removes the
descriptor file it wrote". -/
theorem c6_counterexample :
    (start_tunnel (FS.mk [] [] []) startEnvPollExit "svc" "3000" "http").2 = false ∧
    (start_tunnel (FS.mk [] [] []) startEnvPollExit "svc" "3000" "http").1.pidFiles = [] ∧
    List.lookup "svc"
      (start_tunnel (FS.mk [] [] []) startEnvPollExit "svc" "3000" "http").1.configFiles
      ≠ none := by
  decide

/-- C6 amended: when the subprocess has already exited during the brief
poll, `start_tunnel` reports failure and never writes a PID file (the PID
files are exactly as before), but the descriptor file it wrote stays
behind. -/
theorem c6_amended (fs : FS) (env : StartEnv) (name port protocol : String) (p pid : Int)
    (hp : pyInt port = some p) (hlo : 1 ≤ p) (hhi : p ≤ 65535)
    (hproto : protocol = "http" ∨ protocol = "https")
    (hs : env.spawn = SpawnOutcome.started pid)
    (hpoll : env.pollExited = true) :
    (start_tunnel fs env name port protocol).2 = false ∧
    (start_tunnel fs env name port protocol).1.pidFiles = fs.pidFiles ∧
    List.lookup (chooseFinalName fs env.disambProbe name env.uuid8)
      (start_tunnel fs env name port protocol).1.configFiles =
      some (config_content (chooseFinalName fs env.disambProbe name env.uuid8) port protocol
        env.timestamp) := by
  have hcond : (decide (p < 1) || decide (65535 < p)) = false := by
    simp only [Bool.or_eq_false_iff, decide_eq_false_iff_not]
    omega
  have hpcond : (protocol != "http" && protocol != "https") = false := by
    rcases hproto with h | h <;> subst h <;> decide
  refine ⟨?_, ?_, ?_⟩
  · simp [start_tunnel, hp, hcond, hpcond, hs, hpoll]
  · simp [start_tunnel, hp, hcond, hpcond, hs, hpoll]
  · simp [start_tunnel, hp, hcond, hpcond, hs, hpoll, lookup_writeFile]

/-- C6 witness: `c6_amended` on an empty store with a process that exits
during the poll. -/
theorem c6_witness :
    pyInt "3000" = some 3000 ∧
    (start_tunnel (FS.mk [] [] []) startEnvPollExit "job" "3000" "http").2 = false ∧
    (start_tunnel (FS.mk [] [] []) startEnvPollExit "job" "3000" "http").1.pidFiles =
      (FS.mk [] [] [] : FS).pidFiles ∧
    List.lookup (chooseFinalName (FS.mk [] [] []) startEnvPollExit.disambProbe "job"
        startEnvPollExit.uuid8)
      (start_tunnel (FS.mk [] [] []) startEnvPollExit "job" "3000" "http").1.configFiles
      = some (config_content (chooseFinalName (FS.mk [] [] []) startEnvPollExit.disambProbe
          "job" startEnvPollExit.uuid8) "3000" "http" startEnvPollExit.timestamp) := by
  refine ⟨by decide, ?_⟩
  exact c6_amended (FS.mk [] [] []) startEnvPollExit "job" "3000" "http" 3000 100
    (by decide) (by decide) (by decide) (Or.inl rfl) rfl rfl

/-! ### Disambiguation lemmas -/

/-- The suffix search returns the first free candidate: if all of
`base_k0 … base_(k-1)` are live and `base_k` is free, the loop stops at
`base_k` (given enough fuel). -/
theorem disambiguateAux_spec (fs : FS) (probe : Int → KillOutcome) (base : String) :
    ∀ (fuel k0 k : Nat), k0 ≤ k → k < k0 + fuel →
      (∀ m, k0 ≤ m → m < k →
        is_process_running_for_pid_file fs probe (base ++ "_" ++ natStr m) = true) →
      is_process_running_for_pid_file fs probe (base ++ "_" ++ natStr k) = false →
      disambiguateAux fs probe base fuel k0 = base ++ "_" ++ natStr k := by
  intro fuel
  induction fuel with
  | zero =>
      intro k0 k h1 h2 _ _
      omega
  | succ fuel ih =>
      intro k0 k h1 h2 hall hk
      by_cases hek : k0 = k
      · subst hek
        simp [disambiguateAux, hk]
      · have halive : is_process_running_for_pid_file fs probe (base ++ "_" ++ natStr k0) = true :=
          hall k0 le_rfl (by omega)
        rw [show disambiguateAux fs probe base (fuel + 1) k0 =
            disambiguateAux fs probe base fuel (k0 + 1) from by simp [disambiguateAux, halive]]
        exact ih (k0 + 1) k (by omega) (by omega) (fun m hm1 hm2 => hall m (by omega) hm2) hk

/-- Whatever happens, the suffix search returns a name of the form
`base_k`. -/
theorem disambiguateAux_shape (fs : FS) (probe : Int → KillOutcome) (base : String) :
    ∀ (fuel k0 : Nat), ∃ k, k0 ≤ k ∧
      disambiguateAux fs probe base fuel k0 = base ++ "_" ++ natStr k := by
  intro fuel
  induction fuel with
  | zero =>
      intro k0
      exact ⟨k0, le_rfl, rfl⟩
  | succ fuel ih =>
      intro k0
      by_cases hc : is_process_running_for_pid_file fs probe (base ++ "_" ++ natStr k0) = true
      · obtain ⟨k, hk1, hk2⟩ := ih (k0 + 1)
        refine ⟨k, by omega, ?_⟩
        rw [show disambiguateAux fs probe base (fuel + 1) k0 =
            disambiguateAux fs probe base fuel (k0 + 1) from by simp [disambiguateAux, hc]]
        exact hk2
      · have hc' : is_process_running_for_pid_file fs probe (base ++ "_" ++ natStr k0) = false := by
          simpa using hc
        exact ⟨k0, le_rfl, by simp [disambiguateAux, hc']⟩

theorem natStrAux_ne_nil (fuel n : Nat) : natStrAux (fuel + 1) n ≠ [] := by
  simp only [natStrAux]
  split
  · simp
  · simp

theorem toList_append (s t : String) : (s ++ t).toList = s.toList ++ t.toList := by
  cases s
  cases t
  rfl

theorem base_suffix_ne_base (base : String) (k : Nat) : base ++ "_" ++ natStr k ≠ base := by
  intro h
  have hlen := congrArg String.length h
  rw [String.length_append, String.length_append] at hlen
  have h1 : ("_" : String).length = 1 := rfl
  have h2 : (natStr k).length = (natStrAux (k + 1) k).length := rfl
  have h3 : natStrAux (k + 1) k ≠ [] := natStrAux_ne_nil k k
  have h4 : 0 < (natStrAux (k + 1) k).length := List.length_pos.mpr h3
  omega

/-- The result of `disambiguate` is the base name (only when its PID file
is absent) or a suffixed `base_k`. -/
theorem disambiguate_shape (fs : FS) (probe : Int → KillOutcome) (base : String) :
    disambiguate fs probe base = base ∨
    ∃ k, disambiguate fs probe base = base ++ "_" ++ natStr k := by
  cases hl : List.lookup base fs.pidFiles with
  | none => exact Or.inl (by simp [disambiguate, hl])
  | some c =>
      obtain ⟨k, _, hk⟩ := disambiguateAux_shape fs probe base (fs.pidFiles.length + 1) 1
      exact Or.inr ⟨k, by simp [disambiguate, hl, hk]⟩

/-! ### C5 — name disambiguation in `start_tunnel` -/

/-- C5 counterexample: `svc.pid` exists and its process is confirmed dead by
the probe, yet starting `svc` yields `svc_1`, not `svc` — the unsuffixed
base name is never treated as a reusable free slot. -/
theorem c5_counterexample :
    chooseFinalName (FS.mk [("svc", "7")] [] []) (fun _ => KillOutcome.noSuchProcess)
      "svc" "deadbeef" = "svc_1" ∧
    is_process_running_for_pid_file (FS.mk [("svc", "7")] [] [])
      (fun _ => KillOutcome.noSuchProcess) "svc" = false ∧
    ("svc_1" : String) ≠ "svc" := by
  refine ⟨by decide, by decide, by decide⟩

/-- C5 amended: the sanitized base name is probed only for PID-file
existence — it is used iff no `<base>.pid` exists, and is never reused while
one exists, even a dead one; the suffixed candidates `base_1`, `base_2`, …
are then probed in order, where a candidate whose PID file is absent,
unparsable, or backed by a dead process is a free slot that is reused, and
a live one forces incrementing further. -/
theorem c5_amended (fs : FS) (probe : Int → KillOutcome) (name uuid8 base : String)
    (hbase : (if sanitize_name name = "" then "app_" ++ uuid8 else sanitize_name name) = base) :
    (List.lookup base fs.pidFiles = none → chooseFinalName fs probe name uuid8 = base) ∧
    (List.lookup base fs.pidFiles ≠ none → chooseFinalName fs probe name uuid8 ≠ base) ∧
    (∀ k, List.lookup base fs.pidFiles ≠ none → 1 ≤ k → k ≤ fs.pidFiles.length + 1 →
      (∀ m, 1 ≤ m → m < k →
        is_process_running_for_pid_file fs probe (base ++ "_" ++ natStr m) = true) →
      is_process_running_for_pid_file fs probe (base ++ "_" ++ natStr k) = false →
      chooseFinalName fs probe name uuid8 = base ++ "_" ++ natStr k) := by
  have hcfn : chooseFinalName fs probe name uuid8 = disambiguate fs probe base := by
    rw [chooseFinalName, hbase]
  refine ⟨?_, ?_, ?_⟩
  · intro hnone
    rw [hcfn]
    simp [disambiguate, hnone]
  · intro hsome
    rw [hcfn]
    cases hl : List.lookup base fs.pidFiles with
    | none => exact absurd hl hsome
    | some c =>
        obtain ⟨k, _, hk⟩ := disambiguateAux_shape fs probe base (fs.pidFiles.length + 1) 1
        rw [show disambiguate fs probe base =
            disambiguateAux fs probe base (fs.pidFiles.length + 1) 1 from by
              simp [disambiguate, hl]]
        rw [hk]
        exact base_suffix_ne_base base k
  · intro k hsome hk1 hk2 hall hfree
    rw [hcfn]
    cases hl : List.lookup base fs.pidFiles with
    | none => exact absurd hl hsome
    | some c =>
        rw [show disambiguate fs probe base =
            disambiguateAux fs probe base (fs.pidFiles.length + 1) 1 from by
              simp [disambiguate, hl]]
        exact disambiguateAux_spec fs probe base (fs.pidFiles.length + 1) 1 k hk1 (by omega)
          hall hfree

/-- C5 witness: on an empty store the base name is used as is; with live
`svc` and dead `svc_1` entries, the dead suffixed slot is reused. -/
theorem c5_witness :
    chooseFinalName (FS.mk [] [] []) (fun p => if p == 8 then KillOutcome.noSuchProcess
      else KillOutcome.ok) "svc" "deadbeef" = "svc" ∧
    chooseFinalName (FS.mk [("svc", "7"), ("svc_1", "8")] [] [])
      (fun p => if p == 8 then KillOutcome.noSuchProcess else KillOutcome.ok)
      "svc" "deadbeef" = "svc" ++ "_" ++ natStr 1 ∧
    ("svc" ++ "_" ++ natStr 1 : String) = "svc_1" :=
  ⟨(c5_amended (FS.mk [] [] [])
      (fun p => if p == 8 then KillOutcome.noSuchProcess else KillOutcome.ok)
      "svc" "deadbeef" "svc" (by decide)).1 (by decide),
   (c5_amended (FS.mk [("svc", "7"), ("svc_1", "8")] [] [])
      (fun p => if p == 8 then KillOutcome.noSuchProcess else KillOutcome.ok)
      "svc" "deadbeef" "svc" (by decide)).2.2 1 (by decide) (by decide) (by decide)
      (fun m hm1 hm2 => absurd hm1 (by omega)) (by decide),
   by decide⟩

/-! ### C10 — well-formedness of every constructed tunnel id -/

theorem digitChar_isDigit (d : Nat) (hd : d < 10) : (digitChar d).isDigit = true := by
  interval_cases d <;> decide

theorem natStrAux_digits : ∀ (fuel n : Nat), ∀ c ∈ natStrAux fuel n, c.isDigit = true := by
  intro fuel
  induction fuel with
  | zero =>
      intro n c hc
      simp [natStrAux] at hc
  | succ fuel ih =>
      intro n c hc
      simp only [natStrAux] at hc
      split at hc
      · rename_i hn
        simp only [List.mem_singleton] at hc
        subst hc
        exact digitChar_isDigit n hn
      · rename_i hn
        rcases List.mem_append.mp hc with h | h
        · exact ih (n / 10) c h
        · simp only [List.mem_singleton] at h
          subst h
          exact digitChar_isDigit (n % 10) (Nat.mod_lt n (by omega))

theorem isNameChar_of_isDigit {c : Char} (h : c.isDigit = true) : isNameChar c = true := by
  simp [isNameChar, h]

theorem sanitize_name_chars (name : String) :
    ∀ c ∈ (sanitize_name name).toList, isNameChar c = true := by
  intro c hc
  have : (sanitize_name name).toList =
      name.toList.map (fun c => if isNameChar c then c else '_') := rfl
  rw [this] at hc
  obtain ⟨a, _, ha⟩ := List.mem_map.mp hc
  by_cases hna : isNameChar a = true
  · rw [if_pos hna] at ha
    rw [← ha]
    exact hna
  · rw [if_neg hna] at ha
    rw [← ha]
    decide

/-- C10 (confirmed): whatever the requested name, the final tunnel id used
as a file stem is a non-empty string over `[A-Za-z0-9_-]` — provided the
generated `uuid4` token (which is hexadecimal by construction) is in that
class too. -/
theorem c10_theorem (fs : FS) (probe : Int → KillOutcome) (name uuid8 : String)
    (huuid : ∀ c ∈ uuid8.toList, isNameChar c = true) :
    (chooseFinalName fs probe name uuid8).toList ≠ [] ∧
    ∀ c ∈ (chooseFinalName fs probe name uuid8).toList, isNameChar c = true := by
  have hcfn : chooseFinalName fs probe name uuid8 =
      disambiguate fs probe
        (if sanitize_name name = "" then "app_" ++ uuid8 else sanitize_name name) := rfl
  set base := if sanitize_name name = "" then "app_" ++ uuid8 else sanitize_name name with hbase
  have hbchars : ∀ c ∈ base.toList, isNameChar c = true := by
    rw [hbase]
    split
    · intro c hc
      rw [toList_append] at hc
      rcases List.mem_append.mp hc with h | h
      · have happ : ∀ x ∈ ("app_" : String).toList, isNameChar x = true := by decide
        exact happ c h
      · exact huuid c h
    · exact sanitize_name_chars name
  have hbne : base.toList ≠ [] := by
    rw [hbase]
    split
    · rw [toList_append]
      simp
    · rename_i hne
      intro hcontra
      apply hne
      have : sanitize_name name = String.mk [] := by
        cases hsn : sanitize_name name with
        | mk data =>
            rw [hsn] at hcontra
            simp only [String.toList] at hcontra
            rw [hcontra]
      exact this
  rcases disambiguate_shape fs probe base with h | ⟨k, h⟩
  · rw [hcfn, h]
    exact ⟨hbne, hbchars⟩
  · rw [hcfn, h]
    constructor
    · rw [toList_append, toList_append]
      intro hcontra
      rcases List.append_eq_nil.mp hcontra with ⟨h1, _⟩
      rcases List.append_eq_nil.mp h1 with ⟨h2, _⟩
      exact hbne h2
    · intro c hc
      rw [toList_append, toList_append] at hc
      rcases List.mem_append.mp hc with h1 | h2
      · rcases List.mem_append.mp h1 with h3 | h4
        · exact hbchars c h3
        · have hund : ∀ x ∈ ("_" : String).toList, isNameChar x = true := by decide
          exact hund c h4
      · have : c ∈ natStrAux (k + 1) k := h2
        exact isNameChar_of_isDigit (natStrAux_digits (k + 1) k c this)

/-- C10 witness: `c10_theorem` at the spec's own example name. -/
theorem c10_witness :
    (∀ c ∈ ("abcd1234" : String).toList, isNameChar c = true) ∧
    ((chooseFinalName (FS.mk [] [] []) (fun _ => KillOutcome.ok) "my app!" "abcd1234").toList
        ≠ [] ∧
     ∀ c ∈ (chooseFinalName (FS.mk [] [] []) (fun _ => KillOutcome.ok)
        "my app!" "abcd1234").toList, isNameChar c = true) :=
  ⟨by decide,
   c10_theorem (FS.mk [] [] []) (fun _ => KillOutcome.ok) "my app!" "abcd1234" (by decide)⟩

/-! ### C8 — lazy reconciliation in `get_running_tunnels` -/

theorem lookup_eq_of_mem_nodup {l : List (String × String)}
    (hnd : (l.map Prod.fst).Nodup) {k v : String} (h : (k, v) ∈ l) :
    List.lookup k l = some v := by
  induction l with
  | nil => simp at h
  | cons e es ih =>
      obtain ⟨a, b⟩ := e
      rcases List.mem_cons.mp h with h1 | h2
      · injection h1 with h3 h4
        subst h3
        subst h4
        exact lookup_cons_self es k v
      · have hk : k ≠ a := by
          intro he
          subst he
          have hmap : k ∈ es.map Prod.fst := List.mem_map.mpr ⟨(k, v), h2, rfl⟩
          exact (List.nodup_cons.mp hnd).1 hmap
        rw [lookup_cons_ne es b hk]
        exact ih (List.nodup_cons.mp hnd).2 h2

theorem lookup_purge_pid_ne (fs : FS) {tid h : String} (hne : tid ≠ h) :
    List.lookup tid (purge_files fs h).pidFiles = List.lookup tid fs.pidFiles := by
  simp [purge_files, lookup_eraseFile, hne]

/-- When `tid` has no PID file, the listing never emits a view with that
id: views are emitted only for ids whose PID file was just read. -/
theorem listGo_no_tunnel_of_absent (aliveOf : Int → KillOutcome) :
    ∀ (ids : List String) (fs : FS) (tid : String),
      List.lookup tid fs.pidFiles = none →
      ∀ t ∈ (listGo aliveOf ids fs).2, t.id ≠ tid := by
  intro ids
  induction ids with
  | nil =>
      intro fs tid _ t ht
      simp [listGo] at ht
  | cons h rest ih =>
      intro fs tid habs t ht
      cases hl : List.lookup h fs.pidFiles with
      | none =>
          simp only [listGo, hl] at ht
          exact ih fs tid habs t ht
      | some content =>
          cases hp : pyInt content with
          | none =>
              simp only [listGo, hl, hp] at ht
              have habs' : List.lookup tid (purge_files fs h).pidFiles = none := by
                by_cases he : tid = h
                · subst he
                  exact purge_pid_lookup fs tid
                · rw [lookup_purge_pid_ne fs he]
                  exact habs
              exact ih _ tid habs' t ht
          | some pid =>
              cases hr : is_process_running (aliveOf pid) with
              | true =>
                  simp [listGo, hl, hp, hr] at ht
                  rcases ht with h1 | h2
                  · rw [h1]
                    intro he
                    have he' : h = tid := he
                    subst he'
                    rw [hl] at habs
                    simp at habs
                  · exact ih fs tid habs t h2
              | false =>
                  simp [listGo, hl, hp, hr] at ht
                  have habs' : List.lookup tid (purge_files fs h).pidFiles = none := by
                    by_cases he : tid = h
                    · subst he
                      exact purge_pid_lookup fs tid
                    · rw [lookup_purge_pid_ne fs he]
                      exact habs
                  exact ih _ tid habs' t ht

/-- Core of C8: an id in the candidate list whose PID content is unparsable
or whose process is dead ends up with both files removed and no emitted
view. -/
theorem listGo_removes (aliveOf : Int → KillOutcome) :
    ∀ (ids : List String) (fs : FS) (tid content : String),
      tid ∈ ids →
      List.lookup tid fs.pidFiles = some content →
      (pyInt content = none ∨
        ∃ p, pyInt content = some p ∧ is_process_running (aliveOf p) = false) →
      List.lookup tid (listGo aliveOf ids fs).1.pidFiles = none ∧
      List.lookup tid (listGo aliveOf ids fs).1.configFiles = none ∧
      ∀ t ∈ (listGo aliveOf ids fs).2, t.id ≠ tid := by
  intro ids
  induction ids with
  | nil =>
      intro fs tid content hmem
      simp at hmem
  | cons h rest ih =>
      intro fs tid content hmem hlk hbad
      by_cases hht : h = tid
      · subst hht
        have hpurge : listGo aliveOf (h :: rest) fs = listGo aliveOf rest (purge_files fs h) := by
          rcases hbad with hpn | ⟨p, hps, hpd⟩
          · simp [listGo, hlk, hpn]
          · simp [listGo, hlk, hps, hpd]
        rw [hpurge]
        have habs : List.lookup h (purge_files fs h).pidFiles = none := purge_pid_lookup fs h
        refine ⟨?_, ?_, ?_⟩
        · exact lookup_eq_none_of_sublist (listGo_pid_sublist aliveOf rest _) habs
        · exact lookup_eq_none_of_sublist (listGo_config_sublist aliveOf rest _)
            (purge_config_lookup fs h)
        · exact listGo_no_tunnel_of_absent aliveOf rest _ h habs
      · have hmem' : tid ∈ rest := by
          rcases List.mem_cons.mp hmem with h1 | h2
          · exact absurd h1.symm hht
          · exact h2
        have htd : tid ≠ h := fun he => hht he.symm
        cases hl : List.lookup h fs.pidFiles with
        | none =>
            rw [show listGo aliveOf (h :: rest) fs = listGo aliveOf rest fs from by
              simp [listGo, hl]]
            exact ih fs tid content hmem' hlk hbad
        | some c2 =>
            have hlk' : List.lookup tid (purge_files fs h).pidFiles = some content := by
              rw [lookup_purge_pid_ne fs htd]
              exact hlk
            cases hp2 : pyInt c2 with
            | none =>
                rw [show listGo aliveOf (h :: rest) fs =
                    listGo aliveOf rest (purge_files fs h) from by simp [listGo, hl, hp2]]
                exact ih _ tid content hmem' hlk' hbad
            | some p2 =>
                cases hr2 : is_process_running (aliveOf p2) with
                | false =>
                    rw [show listGo aliveOf (h :: rest) fs =
                        listGo aliveOf rest (purge_files fs h) from by
                      simp [listGo, hl, hp2, hr2]]
                    exact ih _ tid content hmem' hlk' hbad
                | true =>
                    rw [show listGo aliveOf (h :: rest) fs =
                        ((listGo aliveOf rest fs).1,
                          build_tunnel fs h p2 :: (listGo aliveOf rest fs).2) from by
                      simp [listGo, hl, hp2, hr2]]
                    obtain ⟨ha, hb, hc⟩ := ih fs tid content hmem' hlk hbad
                    refine ⟨ha, hb, ?_⟩
                    intro t ht
                    rcases List.mem_cons.mp ht with h1 | h2
                    · rw [h1]
                      exact hht
                    · exact hc t h2

/-- Soundness half of C8: every emitted view comes from a PID file whose
content parsed and whose process was alive at probe time. -/
theorem listGo_sound (aliveOf : Int → KillOutcome) :
    ∀ (ids : List String) (fs : FS), ∀ t ∈ (listGo aliveOf ids fs).2,
      ∃ content, (t.id, content) ∈ fs.pidFiles ∧ pyInt content = some t.pid ∧
        is_process_running (aliveOf t.pid) = true := by
  intro ids
  induction ids with
  | nil =>
      intro fs t ht
      simp [listGo] at ht
  | cons h rest ih =>
      intro fs t ht
      cases hl : List.lookup h fs.pidFiles with
      | none =>
          simp only [listGo, hl] at ht
          exact ih fs t ht
      | some content =>
          cases hp : pyInt content with
          | none =>
              simp only [listGo, hl, hp] at ht
              obtain ⟨c, hc1, hc2, hc3⟩ := ih _ t ht
              exact ⟨c, (eraseFile_sublist _ _).subset hc1, hc2, hc3⟩
          | some pid =>
              cases hr : is_process_running (aliveOf pid) with
              | false =>
                  simp [listGo, hl, hp, hr] at ht
                  obtain ⟨c, hc1, hc2, hc3⟩ := ih _ t ht
                  exact ⟨c, (eraseFile_sublist _ _).subset hc1, hc2, hc3⟩
              | true =>
                  simp [listGo, hl, hp, hr] at ht
                  rcases ht with h1 | h2
                  · subst h1
                    exact ⟨content, mem_of_lookup_eq_some hl, hp, hr⟩
                  · exact ih fs t h2

/-- C8 (confirmed): in `get_running_tunnels`, every candidate id whose PID
content fails to parse or whose process is dead has both its PID file and
its config file removed and is excluded from the returned list, and every
returned entry corresponds to a PID that parsed and was alive at probe
time.  (The id-uniqueness hypothesis reflects that the ids are filesystem
stems, which cannot repeat.) -/
theorem c8_theorem (fs : FS) (aliveOf : Int → KillOutcome)
    (hnd : (fs.pidFiles.map Prod.fst).Nodup) :
    (∀ tid content, (tid, content) ∈ fs.pidFiles →
      (pyInt content = none ∨
        ∃ p, pyInt content = some p ∧ is_process_running (aliveOf p) = false) →
      List.lookup tid (get_running_tunnels fs aliveOf).1.pidFiles = none ∧
      List.lookup tid (get_running_tunnels fs aliveOf).1.configFiles = none ∧
      ∀ t ∈ (get_running_tunnels fs aliveOf).2, t.id ≠ tid) ∧
    (∀ t ∈ (get_running_tunnels fs aliveOf).2,
      ∃ content, (t.id, content) ∈ fs.pidFiles ∧ pyInt content = some t.pid ∧
        is_process_running (aliveOf t.pid) = true) := by
  constructor
  · intro tid content hmem hbad
    have hlk := lookup_eq_of_mem_nodup hnd hmem
    have hid : tid ∈ fs.pidFiles.map Prod.fst := List.mem_map.mpr ⟨(tid, content), hmem, rfl⟩
    exact listGo_removes aliveOf (fs.pidFiles.map Prod.fst) fs tid content hid hlk hbad
  · intro t ht
    exact listGo_sound aliveOf (fs.pidFiles.map Prod.fst) fs t ht

/-- C8 witness: the spec's own example — a PID file containing `"abc"` is
purged together with its config file by the next listing, and excluded
from the result. -/
theorem c8_witness :
    ((FS.mk [("a", "abc"), ("b", "5")] [("a", "x"), ("b", "y")] []).pidFiles.map
        Prod.fst).Nodup ∧
    (List.lookup "a"
        (get_running_tunnels (FS.mk [("a", "abc"), ("b", "5")] [("a", "x"), ("b", "y")] [])
          (fun p => if p == 5 then KillOutcome.ok else KillOutcome.noSuchProcess)).1.pidFiles
        = none ∧
     List.lookup "a"
        (get_running_tunnels (FS.mk [("a", "abc"), ("b", "5")] [("a", "x"), ("b", "y")] [])
          (fun p => if p == 5 then KillOutcome.ok else KillOutcome.noSuchProcess)).1.configFiles
        = none ∧
     ∀ t ∈ (get_running_tunnels (FS.mk [("a", "abc"), ("b", "5")] [("a", "x"), ("b", "y")] [])
          (fun p => if p == 5 then KillOutcome.ok else KillOutcome.noSuchProcess)).2,
       t.id ≠ "a") :=
  ⟨by decide,
   (c8_theorem (FS.mk [("a", "abc"), ("b", "5")] [("a", "x"), ("b", "y")] [])
      (fun p => if p == 5 then KillOutcome.ok else KillOutcome.noSuchProcess)
      (by decide)).1 "a" "abc" (by decide) (Or.inl (by decide))⟩

/-! ### C9 — the URL scanner -/

theorem matchEnd_eq (cs : List Char) (i : Nat) :
    matchEnd cs i =
      if urlHead.isPrefixOf (cs.drop i) then
        if urlTail.isPrefixOf (((cs.drop i).drop 8).drop
            (((cs.drop i).drop 8).takeWhile isLabelChar).length) then
          some (i + 8 + (((cs.drop i).drop 8).takeWhile isLabelChar).length + 18)
        else none
      else none := rfl

theorem drop_length_takeWhile (p : Char → Bool) :
    ∀ l : List Char, l.drop (l.takeWhile p).length = l.dropWhile p := by
  intro l
  induction l with
  | nil => rfl
  | cons c cl ih =>
      by_cases hc : p c = true
      · rw [show (c :: cl).takeWhile p = c :: cl.takeWhile p from by
            simp [List.takeWhile_cons, hc]]
        rw [show (c :: cl).dropWhile p = cl.dropWhile p from by
            simp [List.dropWhile_cons, hc]]
        simpa using ih
      · rw [show (c :: cl).takeWhile p = [] from by simp [List.takeWhile_cons, hc]]
        rw [show (c :: cl).dropWhile p = c :: cl from by simp [List.dropWhile_cons, hc]]
        rfl

/-- A successful match at `i` decomposes the suffix of the content into the
literal head, a run of label characters, the literal tail and a remainder,
and fixes the end position. -/
theorem matchEnd_decomp {cs : List Char} {i e : Nat} (h : matchEnd cs i = some e) :
    ∃ label rest2, cs.drop i = urlHead ++ (label ++ (urlTail ++ rest2)) ∧
      (∀ c ∈ label, isLabelChar c = true) ∧ e = i + 8 + label.length + 18 := by
  rw [matchEnd_eq] at h
  split at h
  · split at h
    · injection h with he
      rename_i h1 h2
      obtain ⟨t1, ht1⟩ := List.isPrefixOf_iff_prefix.mp h1
      obtain ⟨t2, ht2⟩ := List.isPrefixOf_iff_prefix.mp h2
      refine ⟨((cs.drop i).drop 8).takeWhile isLabelChar, t2, ?_, ?_, ?_⟩
      · have hteq : (cs.drop i).drop 8 = t1 := by
          rw [← ht1, show (8 : Nat) = urlHead.length from rfl, List.drop_left]
        have hsplit : (cs.drop i).drop 8 =
            ((cs.drop i).drop 8).takeWhile isLabelChar ++
              (((cs.drop i).drop 8).drop
                (((cs.drop i).drop 8).takeWhile isLabelChar).length) := by
          rw [drop_length_takeWhile]
          exact (List.takeWhile_append_dropWhile isLabelChar _).symm
        calc cs.drop i = urlHead ++ t1 := ht1.symm
          _ = urlHead ++ (cs.drop i).drop 8 := by rw [hteq]
          _ = urlHead ++ (((cs.drop i).drop 8).takeWhile isLabelChar ++
                (((cs.drop i).drop 8).drop
                  (((cs.drop i).drop 8).takeWhile isLabelChar).length)) := by
              rw [← hsplit]
          _ = urlHead ++ (((cs.drop i).drop 8).takeWhile isLabelChar ++ (urlTail ++ t2)) := by
              rw [ht2]
      · intro c hc
        exact List.mem_takeWhile_imp hc
      · exact he.symm
    · exact absurd h (by simp)
  · exact absurd h (by simp)

theorem matchEnd_gt {cs : List Char} {i e : Nat} (h : matchEnd cs i = some e) : i < e := by
  obtain ⟨label, rest2, _, _, he⟩ := matchEnd_decomp h
  omega

/-- Index classification inside a decomposed match window. -/
theorem big_getElem (label rest2 : List Char) (q : Nat) :
    (urlHead ++ (label ++ (urlTail ++ rest2)))[q]? =
      if q < 8 then urlHead[q]?
      else if q - 8 < label.length then label[q - 8]?
      else if q - 8 - label.length < 18 then urlTail[q - 8 - label.length]?
      else rest2[q - 8 - label.length - 18]? := by
  have hh : urlHead.length = 8 := rfl
  have ht : urlTail.length = 18 := rfl
  rw [List.getElem?_append, hh]
  by_cases h1 : q < 8
  · simp [h1]
  · rw [if_neg h1, List.getElem?_append]
    by_cases h2 : q - 8 < label.length
    · simp [h1, h2]
    · rw [if_neg h2, List.getElem?_append, ht]
      by_cases h3 : q - 8 - label.length < 18
      · simp [h1, h2, h3]
      · simp [h1, h2, h3]

/-- No later match can start strictly inside a match window: the character
`':'` required at offset 5 of any match occurs nowhere in a window except
at its own offset 5, and the last five window characters contain no `'h'`.
This is what makes the left-to-right resume-after-match scan exhaustive. -/
theorem matchEnd_no_overlap {cs : List Char} {i e : Nat} (h : matchEnd cs i = some e) :
    ∀ j, i < j → j < e → matchEnd cs j = none := by
  intro j hij hje
  cases hmj : matchEnd cs j with
  | none => rfl
  | some e2 =>
      exfalso
      obtain ⟨label, rest2, hbig, hlab, he⟩ := matchEnd_decomp h
      obtain ⟨label2, rest2b, hbig2, _, _⟩ := matchEnd_decomp hmj
      have hj0 : cs[j]? = some 'h' := by
        have h0 : (cs.drop j)[0]? = some 'h' := by
          rw [hbig2]
          rfl
        rw [List.getElem?_drop] at h0
        simpa using h0
      have hj5 : cs[j + 5]? = some ':' := by
        have h5 : (cs.drop j)[5]? = some ':' := by
          rw [hbig2]
          rfl
        rw [List.getElem?_drop] at h5
        exact h5
      have hd0 : cs[i + (j - i)]? = some 'h' := by
        rw [show i + (j - i) = j from by omega]
        exact hj0
      have hd5 : cs[i + (j - i + 5)]? = some ':' := by
        rw [show i + (j - i + 5) = j + 5 from by omega]
        exact hj5
      rw [← List.getElem?_drop, hbig, big_getElem] at hd0 hd5
      have hdlo : 1 ≤ j - i := by omega
      have hdhi : j - i < 8 + label.length + 18 := by omega
      by_cases hA : j - i + 5 < 8
      · rw [if_pos hA] at hd5
        have hd67 : j - i + 5 = 6 ∨ j - i + 5 = 7 := by omega
        rcases hd67 with h6 | h7
        · rw [h6] at hd5
          exact absurd hd5 (by decide)
        · rw [h7] at hd5
          exact absurd hd5 (by decide)
      · rw [if_neg hA] at hd5
        by_cases hB : j - i + 5 - 8 < label.length
        · rw [if_pos hB] at hd5
          obtain ⟨hlt, hget⟩ := List.getElem?_eq_some.mp hd5
          have hmem : ':' ∈ label := hget ▸ List.getElem_mem hlt
          have := hlab ':' hmem
          exact absurd this (by decide)
        · rw [if_neg hB] at hd5
          by_cases hC : j - i + 5 - 8 - label.length < 18
          · rw [if_pos hC] at hd5
            obtain ⟨hlt, hget⟩ := List.getElem?_eq_some.mp hd5
            have hmem : ':' ∈ urlTail := hget ▸ List.getElem_mem hlt
            exact absurd hmem (by decide)
          · rw [if_neg (by omega), if_neg (by omega), if_pos (by omega)] at hd0
            obtain ⟨hlt, hget⟩ := List.getElem?_eq_some.mp hd0
            have hmem : 'h' ∈ urlTail := hget ▸ List.getElem_mem hlt
            exact absurd hmem (by decide)

/-- `matchPositionsAux` is fuel-independent once the fuel covers the
remaining positions. -/
theorem mpAux_congr (cs : List Char) :
    ∀ (fuel fuel' i : Nat), cs.length ≤ i + fuel → cs.length ≤ i + fuel' →
      matchPositionsAux cs fuel i = matchPositionsAux cs fuel' i := by
  intro fuel
  induction fuel with
  | zero =>
      intro fuel' i h1 _
      have hi : ¬ i < cs.length := by omega
      cases fuel' with
      | zero => rfl
      | succ f => simp [matchPositionsAux, hi]
  | succ fuel ih =>
      intro fuel' i h1 h2
      by_cases hi : i < cs.length
      · cases fuel' with
        | zero => omega
        | succ f =>
            simp only [matchPositionsAux, if_pos hi]
            rw [ih f (i + 1) (by omega) (by omega)]
      · cases fuel' with
        | zero => simp [matchPositionsAux, hi]
        | succ f => simp [matchPositionsAux, hi]

/-- Skipping over a stretch with no matches does not change the remaining
position list. -/
theorem mpAux_skip (cs : List Char) :
    ∀ (fuel a b : Nat), a ≤ b → cs.length ≤ a + fuel →
      (∀ j, a ≤ j → j < b → matchEnd cs j = none) →
      matchPositionsAux cs fuel a = matchPositionsAux cs fuel b := by
  intro fuel
  induction fuel with
  | zero => intro a b _ _ _; rfl
  | succ fuel ih =>
      intro a b hab hlen hnone
      by_cases heq : a = b
      · rw [heq]
      · have hab' : a < b := lt_of_le_of_ne hab heq
        have hnone_a : matchEnd cs a = none := hnone a le_rfl hab'
        by_cases hi : a < cs.length
        · have hstep : matchPositionsAux cs (fuel + 1) a = matchPositionsAux cs fuel (a + 1) := by
            simp [matchPositionsAux, hi, hnone_a]
          rw [hstep, ih (a + 1) b (by omega) (by omega) (fun j hj1 hj2 => hnone j (by omega) hj2)]
          exact mpAux_congr cs fuel (fuel + 1) b (by omega) (by omega)
        · have hb : ¬ b < cs.length := by omega
          simp [matchPositionsAux, hi, hb]

/-- The scan of `re.findall` collects exactly the matches at the match
positions, in order: the resume-after-match jump loses nothing because no
match can start inside another (`matchEnd_no_overlap`). -/
theorem findUrlsAux_eq_map (cs : List Char) :
    ∀ (fuel i : Nat), cs.length ≤ i + fuel →
      findUrlsAux cs fuel i = (matchPositionsAux cs fuel i).map (matchStrAt cs) := by
  intro fuel
  induction fuel with
  | zero => intro i _; rfl
  | succ fuel ih =>
      intro i hlen
      by_cases hi : i < cs.length
      · cases hm : matchEnd cs i with
        | none =>
            have hs : (matchEnd cs i).isSome = false := by simp [hm]
            simp only [findUrlsAux, matchPositionsAux, if_pos hi, hm, hs, Bool.false_eq_true,
              if_neg]
            exact ih (i + 1) (by omega)
        | some e =>
            have hgt : i < e := matchEnd_gt hm
            have hs : (matchEnd cs i).isSome = true := by simp [hm]
            rw [show findUrlsAux cs (fuel + 1) i = matchStrAt cs i :: findUrlsAux cs fuel e
              from by simp [findUrlsAux, hi, hm]]
            rw [show matchPositionsAux cs (fuel + 1) i = i :: matchPositionsAux cs fuel (i + 1)
              from by simp [matchPositionsAux, hi, hs]]
            rw [List.map_cons]
            congr 1
            rw [ih e (by omega)]
            congr 1
            rw [← mpAux_skip cs fuel (i + 1) e (by omega) (by omega)
              (fun j hj1 hj2 => matchEnd_no_overlap hm j (by omega) hj2)]
      · rw [show findUrlsAux cs (fuel + 1) i = [] from by simp [findUrlsAux, hi]]
        rw [show matchPositionsAux cs (fuel + 1) i = [] from by simp [matchPositionsAux, hi]]
        rfl

/-- Meaning of `matchPositionsAux`: exactly the positions `≥ i` (within the
content) at which the pattern matches. -/
theorem mpAux_mem (cs : List Char) :
    ∀ (fuel i p : Nat), cs.length ≤ i + fuel →
      (p ∈ matchPositionsAux cs fuel i ↔
        i ≤ p ∧ p < cs.length ∧ (matchEnd cs p).isSome = true) := by
  intro fuel
  induction fuel with
  | zero =>
      intro i p hlen
      constructor
      · intro hp
        simp [matchPositionsAux] at hp
      · intro ⟨h1, h2, _⟩
        omega
  | succ fuel ih =>
      intro i p hlen
      by_cases hi : i < cs.length
      · by_cases hs : (matchEnd cs i).isSome = true
        · rw [show matchPositionsAux cs (fuel + 1) i = i :: matchPositionsAux cs fuel (i + 1)
              from by simp [matchPositionsAux, hi, hs]]
          rw [List.mem_cons, ih (i + 1) p (by omega)]
          constructor
          · intro hp
            rcases hp with h1 | ⟨h1, h2, h3⟩
            · subst h1
              exact ⟨le_rfl, hi, hs⟩
            · exact ⟨by omega, h2, h3⟩
          · intro ⟨h1, h2, h3⟩
            by_cases hpi : p = i
            · exact Or.inl hpi
            · exact Or.inr ⟨by omega, h2, h3⟩
        · rw [show matchPositionsAux cs (fuel + 1) i = matchPositionsAux cs fuel (i + 1)
              from by simp [matchPositionsAux, hi, hs]]
          rw [ih (i + 1) p (by omega)]
          constructor
          · intro ⟨h1, h2, h3⟩
            exact ⟨by omega, h2, h3⟩
          · intro ⟨h1, h2, h3⟩
            by_cases hpi : p = i
            · subst hpi
              exact absurd h3 hs
            · exact ⟨by omega, h2, h3⟩
      · rw [show matchPositionsAux cs (fuel + 1) i = [] from by simp [matchPositionsAux, hi]]
        constructor
        · intro hp
          simp at hp
        · intro ⟨h1, h2, _⟩
          omega

/-- C9 (confirmed): the log scanner returns the empty string when the log
file is missing; `matchPositions` lists exactly the positions at which the
public-URL pattern matches in the full content; when there is no match the
scanner returns the empty string; and when matches exist it returns the
one at the last (most recent) match position. -/
theorem c9_theorem :
    extract_public_url none = "" ∧
    (∀ content : String, ∀ p : Nat,
      p ∈ matchPositions content.toList ↔
        p < content.toList.length ∧ (matchEnd content.toList p).isSome = true) ∧
    (∀ content : String, matchPositions content.toList = [] →
      extract_public_url (some content) = "") ∧
    (∀ content : String, ∀ p : Nat, (matchPositions content.toList).getLast? = some p →
      extract_public_url (some content) = String.mk (matchStrAt content.toList p)) := by
  refine ⟨rfl, ?_, ?_, ?_⟩
  · intro content p
    have h := mpAux_mem content.toList content.toList.length 0 p (by omega)
    exact ⟨fun hp => And.intro (h.mp hp).2.1 (h.mp hp).2.2,
      fun hp => h.mpr ⟨Nat.zero_le p, hp.1, hp.2⟩⟩
  · intro content hm
    have hchar := findUrlsAux_eq_map content.toList content.toList.length 0 (by omega)
    show lastOrEmpty (findUrlsAux content.toList content.toList.length 0) = ""
    rw [hchar]
    have hm' : matchPositionsAux content.toList content.toList.length 0 = [] := hm
    rw [hm']
    rfl
  · intro content p hp
    have hchar := findUrlsAux_eq_map content.toList content.toList.length 0 (by omega)
    show lastOrEmpty (findUrlsAux content.toList content.toList.length 0) =
      String.mk (matchStrAt content.toList p)
    rw [hchar]
    have hp' : (matchPositionsAux content.toList content.toList.length 0).getLast? = some p := hp
    simp only [lastOrEmpty]
    rw [List.getLast?_map, hp']
    rfl

/-- C9 witness: a log with two public-URL occurrences — the scanner returns
the second (most recent) one. -/
theorem c9_witness :
    (matchPositions
        ("x https://a.trycloudflare.com y https://bb.trycloudflare.com z" : String).toList).getLast?
      = some 32 ∧
    extract_public_url (some "x https://a.trycloudflare.com y https://bb.trycloudflare.com z") =
      String.mk (matchStrAt
        ("x https://a.trycloudflare.com y https://bb.trycloudflare.com z" : String).toList 32) ∧
    String.mk (matchStrAt
        ("x https://a.trycloudflare.com y https://bb.trycloudflare.com z" : String).toList 32) =
      "https://bb.trycloudflare.com" :=
  ⟨by decide,
   c9_theorem.2.2.2 "x https://a.trycloudflare.com y https://bb.trycloudflare.com z" 32
     (by decide),
   by decide⟩

end TunnelFlare

